import Mathlib

/-!
Shallow embedding of the persistence layer of the Smart-MD-Viewer
repository (src/lib/indexedDB.ts and src/hooks/useTickets.ts).

Each IndexedDB object store is modelled as a Lean list of records kept in
storage order.  The IndexedDB primitives used by the source are embedded
as pure list operations following the IndexedDB specification:
`store.put` replaces the record with the same primary key or appends,
`store.add` fails when the key is already present, `store.get` is a
first-match lookup, `store.delete` removes by key and succeeds on a
missing key, `index.getAll(q)` with a non-null query returns the records
whose index key equals `q`, and with a null query returns every record
that has an index entry (records whose key path evaluates to null are
not indexed; a null query denotes the unbounded range).  A multiEntry
index has one entry per array element.  Fallible operations return
`Except`; `get` returns `Option`.
-/

/-- Record shape of the `documents` collection (interface Document). -/
structure Document where
  id : String
  title : String
  content : String
  folderId : Option String
  tags : List String
  isPinned : Bool
  createdAt : Nat
  updatedAt : Nat
deriving DecidableEq, Repr

/-- Record shape of the `folders` collection (interface Folder). -/
structure Folder where
  id : String
  name : String
  parentId : Option String
  createdAt : Nat
deriving DecidableEq, Repr

/-- The ticket status enum: todo, in-progress, in-review, done. -/
inductive TicketStatus where
  | todo
  | inProgress
  | inReview
  | done
deriving DecidableEq, Repr

/-- The ticket priority enum: low, medium, high. -/
inductive TicketPriority where
  | low
  | medium
  | high
deriving DecidableEq, Repr

/-- Record shape of the `tickets` collection (interface Ticket). -/
structure Ticket where
  id : String
  title : String
  description : String
  status : TicketStatus
  priority : TicketPriority
  tags : List String
  assignee : Option String
  linkedPRs : List String
  createdAt : Nat
  updatedAt : Nat
deriving DecidableEq, Repr

/-- Embedding of `IDBObjectStore.put`: replace the record that has the
same primary key, or append the record when the key is absent. -/
def listPut {α : Type} (key : α → String) (r : α) : List α → List α
  | [] => [r]
  | x :: xs => if key x = key r then r :: xs else x :: listPut key r xs

/-- Embedding of `IDBObjectStore.get`: first record with the given key. -/
def listGet {α : Type} (key : α → String) (i : String) (l : List α) : Option α :=
  l.find? (fun x => decide (key x = i))

/-- Embedding of `IDBObjectStore.delete`: remove every record with the
given key; deleting a missing key leaves the store unchanged and is not
an error. -/
def listDelete {α : Type} (key : α → String) (i : String) (l : List α) : List α :=
  l.filter (fun x => decide (key x ≠ i))

/-- Embedding of `IDBObjectStore.add`: append the record when the key is
absent, and fail with a ConstraintError when a record with the same key
already exists. -/
def listAdd {α : Type} (key : α → String) (r : α) (l : List α) : Except String (List α) :=
  if l.any (fun x => decide (key x = key r)) then
    Except.error "ConstraintError"
  else
    Except.ok (l ++ [r])

/-- Sequence of `put` operations, in list order. -/
def listPutAll {α : Type} (key : α → String) (l : List α) (s : List α) : List α :=
  l.foldl (fun st r => listPut key r st) s

/-- Embedding of `IDBIndex.getAll(q)` for a single-valued index over a
nullable key path: a non-null query returns the records whose key equals
the query; a null query denotes the unbounded key range and returns
every indexed record, and records whose key path evaluates to null have
no index entry. -/
def indexGetAllOpt {α : Type} (keyOf : α → Option String) (q : Option String)
    (l : List α) : List α :=
  match q with
  | some k => l.filter (fun x => decide (keyOf x = some k))
  | none => l.filter (fun x => (keyOf x).isSome)

/-- Embedding of `IDBIndex.getAll(q)` for a single-valued index over a
non-nullable key path. -/
def indexGetAllEq {α β : Type} [DecidableEq β] (keyOf : α → β) (q : β)
    (l : List α) : List α :=
  l.filter (fun x => decide (keyOf x = q))

/-- Embedding of `IDBIndex.getAll(q)` for a multiEntry index over an
array-valued key path: one index entry per array element, so a record is
returned exactly when the query key is one of its elements. -/
def multiIndexGetAll {α : Type} (keysOf : α → List String) (q : String)
    (l : List α) : List α :=
  l.filter (fun x => decide (q ∈ keysOf x))

/-- Embedding of JavaScript `s.toLowerCase()`: the string viewed as its
sequence of characters, each lowercased. -/
def jsLower (s : String) : List Char :=
  s.data.map Char.toLower

/-- Embedding of JavaScript `hay.includes(sub)`: substring test on
character sequences. -/
def jsIncludes (hay sub : List Char) : Bool :=
  decide (sub <:+: hay)

/-- The three collections of the SmartMDWorkspace store. -/
structure DB where
  documents : List Document
  folders : List Folder
  tickets : List Ticket
deriving DecidableEq, Repr

/-- A store with all three collections empty. -/
def emptyDB : DB := ⟨[], [], []⟩

/-- saveDocument: `put` into the documents collection. -/
def saveDocument (d : Document) (s : DB) : DB :=
  { s with documents := listPut Document.id d s.documents }

/-- getDocument: `get` from the documents collection. -/
def getDocument (i : String) (s : DB) : Option Document :=
  listGet Document.id i s.documents

/-- getAllDocuments: `getAll` of the documents collection. -/
def getAllDocuments (s : DB) : List Document :=
  s.documents

/-- getDocumentsByFolder: `getAll` on the folderId index of documents. -/
def getDocumentsByFolder (q : Option String) (s : DB) : List Document :=
  indexGetAllOpt Document.folderId q s.documents

/-- getDocumentsByTag: `getAll` on the multiEntry tags index of documents. -/
def getDocumentsByTag (g : String) (s : DB) : List Document :=
  multiIndexGetAll Document.tags g s.documents

/-- getPinnedDocuments: full scan filtered by the isPinned flag. -/
def getPinnedDocuments (s : DB) : List Document :=
  (getAllDocuments s).filter (fun d => d.isPinned)

/-- deleteDocument: `delete` from the documents collection. -/
def deleteDocument (i : String) (s : DB) : DB :=
  { s with documents := listDelete Document.id i s.documents }

/-- searchDocuments: full scan keeping the documents whose lowercased
title or content contains the lowercased query. -/
def searchDocuments (q : String) (s : DB) : List Document :=
  let lowerQuery := jsLower q
  (getAllDocuments s).filter (fun d =>
    jsIncludes (jsLower d.title) lowerQuery || jsIncludes (jsLower d.content) lowerQuery)

/-- saveFolder: `put` into the folders collection. -/
def saveFolder (f : Folder) (s : DB) : DB :=
  { s with folders := listPut Folder.id f s.folders }

/-- getFolder: `get` from the folders collection. -/
def getFolder (i : String) (s : DB) : Option Folder :=
  listGet Folder.id i s.folders

/-- getAllFolders: `getAll` of the folders collection. -/
def getAllFolders (s : DB) : List Folder :=
  s.folders

/-- getFoldersByParent: `getAll` on the parentId index of folders. -/
def getFoldersByParent (q : Option String) (s : DB) : List Folder :=
  indexGetAllOpt Folder.parentId q s.folders

/-- deleteFolder: `delete` from the folders collection. -/
def deleteFolder (i : String) (s : DB) : DB :=
  { s with folders := listDelete Folder.id i s.folders }

/-- The shape of an exported snapshot: documents and folders only. -/
structure Workspace where
  documents : List Document
  folders : List Folder
deriving DecidableEq, Repr

/-- exportWorkspace: snapshot of the documents and folders collections. -/
def exportWorkspace (s : DB) : Workspace :=
  ⟨getAllDocuments s, getAllFolders s⟩

/-- importWorkspace: `put` every folder of the snapshot, then `put`
every document of the snapshot, in that order. -/
def importWorkspace (snap : Workspace) (s : DB) : DB :=
  let s1 := snap.folders.foldl (fun st f => saveFolder f st) s
  snap.documents.foldl (fun st d => saveDocument d st) s1

/-- createTicket: `add` into the tickets collection; fails when a ticket
with the same id already exists. -/
def createTicket (t : Ticket) (s : DB) : Except String DB :=
  (listAdd Ticket.id t s.tickets).map (fun l => { s with tickets := l })

/-- updateTicket: `put` into the tickets collection. -/
def updateTicket (t : Ticket) (s : DB) : DB :=
  { s with tickets := listPut Ticket.id t s.tickets }

/-- getTicket: `get` from the tickets collection. -/
def getTicket (i : String) (s : DB) : Option Ticket :=
  listGet Ticket.id i s.tickets

/-- getAllTickets: `getAll` of the tickets collection. -/
def getAllTickets (s : DB) : List Ticket :=
  s.tickets

/-- getTicketsByStatus: `getAll` on the status index of tickets. -/
def getTicketsByStatus (q : TicketStatus) (s : DB) : List Ticket :=
  indexGetAllEq Ticket.status q s.tickets

/-- getTicketsByPriority: `getAll` on the priority index of tickets. -/
def getTicketsByPriority (q : TicketPriority) (s : DB) : List Ticket :=
  indexGetAllEq Ticket.priority q s.tickets

/-- getTicketsByTag: `getAll` on the multiEntry tags index of tickets. -/
def getTicketsByTag (g : String) (s : DB) : List Ticket :=
  multiIndexGetAll Ticket.tags g s.tickets

/-- deleteTicket: `delete` from the tickets collection. -/
def deleteTicket (i : String) (s : DB) : DB :=
  { s with tickets := listDelete Ticket.id i s.tickets }

/-- searchTickets: full scan keeping the tickets whose lowercased title,
description, or one of whose lowercased tags contains the lowercased
query.  The assignee field is not consulted. -/
def searchTickets (q : String) (s : DB) : List Ticket :=
  let lowerQuery := jsLower q
  (getAllTickets s).filter (fun t =>
    jsIncludes (jsLower t.title) lowerQuery
      || jsIncludes (jsLower t.description) lowerQuery
      || t.tags.any (fun g => jsIncludes (jsLower g) lowerQuery))

/-- Declaration of one secondary index: name, key path, multiEntry flag. -/
structure IndexDef where
  name : String
  keyPath : String
  multiEntry : Bool
deriving DecidableEq, Repr

/-- The indexes created on the documents store by the upgrade routine. -/
def documentIndexDefs : List IndexDef :=
  [⟨"folderId", "folderId", false⟩,
   ⟨"tags", "tags", true⟩,
   ⟨"isPinned", "isPinned", false⟩,
   ⟨"updatedAt", "updatedAt", false⟩]

/-- The index created on the folders store by the upgrade routine. -/
def folderIndexDefs : List IndexDef :=
  [⟨"parentId", "parentId", false⟩]

/-- The indexes created on the tickets store by the upgrade routine. -/
def ticketIndexDefs : List IndexDef :=
  [⟨"status", "status", false⟩,
   ⟨"priority", "priority", false⟩,
   ⟨"tags", "tags", true⟩,
   ⟨"assignee", "assignee", false⟩,
   ⟨"updatedAt", "updatedAt", false⟩,
   ⟨"createdAt", "createdAt", false⟩]

/-- On-disk state of the SmartMDWorkspace store: its recorded schema
version and, for each of the three possible object stores, `none` when
the store does not exist yet and otherwise its index declarations
together with its records. -/
structure StoreState where
  version : Nat
  documentsStore : Option (List IndexDef × List Document)
  foldersStore : Option (List IndexDef × List Folder)
  ticketsStore : Option (List IndexDef × List Ticket)
deriving DecidableEq, Repr

/-- The schema version declared by the code (DB_VERSION). -/
def DB_VERSION : Nat := 2

/-- The onupgradeneeded handler of initDB: each of the three object
stores is created, with its declared indexes and no records, only when
`objectStoreNames` does not already contain it; an existing store is
left exactly as it is. -/
def onUpgradeNeeded (s : StoreState) : StoreState :=
  let s1 :=
    match s.documentsStore with
    | some _ => s
    | none => { s with documentsStore := some (documentIndexDefs, []) }
  let s2 :=
    match s1.foldersStore with
    | some _ => s1
    | none => { s1 with foldersStore := some (folderIndexDefs, []) }
  match s2.ticketsStore with
  | some _ => s2
  | none => { s2 with ticketsStore := some (ticketIndexDefs, []) }

/-- Opening the store at DB_VERSION: when the recorded version is behind
the declared version the upgrade handler runs once and the version is
raised; otherwise the state is untouched. -/
def initDBOpen (s : StoreState) : StoreState :=
  if s.version < DB_VERSION then
    { onUpgradeNeeded s with version := DB_VERSION }
  else
    s

/-- Process state of the module-level connection cache of indexedDB.ts:
the cached connection handle (the module variable `db`, `none` until an
open has succeeded) and a count of how many `indexedDB.open` requests
have been issued so far. -/
structure ConnState where
  db : Option Nat
  opensIssued : Nat
deriving DecidableEq, Repr

/-- The process state before any call to initDB. -/
def connInit : ConnState := ⟨none, 0⟩

/-- Synchronous prologue of one initDB call: when the cache `db` is set
the call resolves the cached connection at once and contacts the backend
no further; otherwise a new `indexedDB.open` request is issued and the
call is left pending (no connection resolved yet). -/
def initDBCall (s : ConnState) : ConnState × Option Nat :=
  match s.db with
  | some c => (s, some c)
  | none => (⟨none, s.opensIssued + 1⟩, none)

/-- The onsuccess handler of an open request: the resulting connection
is stored in the module-level cache. -/
def openSuccess (c : Nat) (s : ConnState) : ConnState :=
  ⟨some c, s.opensIssued⟩

/-- The argument of the useTickets createTicket callback: a ticket
without id, createdAt and updatedAt (Omit of those fields). -/
structure TicketData where
  title : String
  description : String
  status : TicketStatus
  priority : TicketPriority
  tags : List String
  assignee : Option String
  linkedPRs : List String
deriving DecidableEq, Repr

/-- The ticket built by the useTickets createTicket callback: the given
data plus a fresh id and `createdAt = updatedAt = now`. -/
def mkNewTicket (now : Nat) (uid : String) (d : TicketData) : Ticket :=
  ⟨uid, d.title, d.description, d.status, d.priority, d.tags, d.assignee,
   d.linkedPRs, now, now⟩

/-- The useTickets createTicket callback: build the new ticket and store
it with the `add`-based createTicket operation. -/
def hookCreateTicket (now : Nat) (uid : String) (d : TicketData) (s : DB) :
    Except String DB :=
  createTicket (mkNewTicket now uid d) s

/-- A Partial Ticket update patch: each field is optionally replaced. -/
structure TicketPatch where
  id : Option String := none
  title : Option String := none
  description : Option String := none
  status : Option TicketStatus := none
  priority : Option TicketPriority := none
  tags : Option (List String) := none
  assignee : Option (Option String) := none
  linkedPRs : Option (List String) := none
  createdAt : Option Nat := none
  updatedAt : Option Nat := none
deriving DecidableEq, Repr

/-- JavaScript object spread of a patch over a ticket: every field
present in the patch replaces the corresponding ticket field. -/
def applyPatch (t : Ticket) (p : TicketPatch) : Ticket :=
  { id := p.id.getD t.id
    title := p.title.getD t.title
    description := p.description.getD t.description
    status := p.status.getD t.status
    priority := p.priority.getD t.priority
    tags := p.tags.getD t.tags
    assignee := p.assignee.getD t.assignee
    linkedPRs := p.linkedPRs.getD t.linkedPRs
    createdAt := p.createdAt.getD t.createdAt
    updatedAt := p.updatedAt.getD t.updatedAt }

/-- The record written by the useTickets updateTicket callback:
`{...existingTicket, ...updates, id, updatedAt: Date.now()}` — the
spread of the patch, with the id forced back to the argument id and
updatedAt forced to the current time. -/
def hookApply (now : Nat) (i : String) (p : TicketPatch) (t : Ticket) : Ticket :=
  { applyPatch t p with id := i, updatedAt := now }

/-- The useTickets updateTicket callback: read the existing ticket (a
missing id is an error), apply the patch, force id and updatedAt, and
store the result with the `put`-based updateTicket operation. -/
def hookUpdateTicket (now : Nat) (i : String) (p : TicketPatch) (s : DB) :
    Except String DB :=
  match getTicket i s with
  | none => Except.error "Ticket not found"
  | some t => Except.ok (updateTicket (hookApply now i p t) s)

/-- The patch sent by the useTickets moveTicket callback. -/
def statusPatch (st : TicketStatus) : TicketPatch :=
  { status := some st }

/-- The useTickets moveTicket callback: an update with a status-only
patch. -/
def hookMoveTicket (now : Nat) (i : String) (st : TicketStatus) (s : DB) :
    Except String DB :=
  hookUpdateTicket now i (statusPatch st) s

/-- A sample document stored at the root (folderId null). -/
def exDoc : Document := ⟨"d1", "Readme", "hello world", none, ["docs"], true, 10, 20⟩

/-- A sample document stored inside folder f1. -/
def exDoc2 : Document := ⟨"d2", "Notes", "alpha beta", some "f1", [], false, 11, 21⟩

/-- A sample root folder. -/
def exFolder : Folder := ⟨"f1", "Projects", none, 5⟩

/-- Sample creation data for a ticket whose assignee is alice. -/
def cTicketData : TicketData :=
  ⟨"Fix login bug", "Users cannot log in", TicketStatus.todo, TicketPriority.high,
   ["bug"], some "alice", []⟩

/-- The ticket created from `cTicketData` at time 100 with id t1. -/
def exTicketA : Ticket := mkNewTicket 100 "t1" cTicketData

/-- A store holding only the ticket `exTicketA`. -/
def exDBt : DB := { emptyDB with tickets := [exTicketA] }

/-- A store holding two documents, one folder and one ticket. -/
def exWsDB : DB := ⟨[exDoc, exDoc2], [exFolder], [exTicketA]⟩

/-- An update patch that overrides the createdAt field. -/
def exBadPatch : TicketPatch := { createdAt := some 999 }

/-- The store produced by creating the sample ticket at time 100. -/
def exAfterCreate : Except String DB := hookCreateTicket 100 "t1" cTicketData emptyDB

/-- The store produced by then updating the ticket at time 150 with the
patch that overrides createdAt. -/
def exAfterUpdate : Except String DB :=
  exAfterCreate.bind (hookUpdateTicket 150 "t1" exBadPatch)

/-- The stored ticket after the two hook operations above. -/
def exFinalTicket : Option Ticket := exAfterUpdate.toOption.bind (getTicket "t1")

/-- After a `put`, looking up the key of the written record finds it. -/
theorem listGet_listPut_self {α : Type} (key : α → String) (r : α) (l : List α) :
    listGet key (key r) (listPut key r l) = some r := by
  induction l with
  | nil => simp [listGet, listPut]
  | cons x xs ih =>
    by_cases h : key x = key r
    · simp [listGet, listPut, h]
    · simp only [listPut, if_neg h]
      simpa [listGet, List.find?, h] using ih

/-- A `put` does not change the lookup of any other key. -/
theorem listGet_listPut_other {α : Type} (key : α → String) (r : α) (l : List α)
    (i : String) (h : i ≠ key r) :
    listGet key i (listPut key r l) = listGet key i l := by
  have hri : key r ≠ i := fun hc => h hc.symm
  induction l with
  | nil => simp [listGet, listPut, List.find?, hri]
  | cons x xs ih =>
    by_cases hx : key x = key r
    · have hxi : key x ≠ i := fun hc => hri (hx ▸ hc)
      simp [listGet, listPut, hx, List.find?, hxi, hri]
    · by_cases hxi : key x = i
      · have hd : decide (key x = i) = true := decide_eq_true hxi
        simp [listGet, listPut, hx, List.find?, hd]
      · simpa [listGet, listPut, hx, List.find?, hxi] using ih

/-- A `put` of a record whose key is absent appends the record. -/
theorem listPut_eq_append {α : Type} (key : α → String) (r : α) (l : List α)
    (h : ∀ x ∈ l, key x ≠ key r) :
    listPut key r l = l ++ [r] := by
  induction l with
  | nil => simp [listPut]
  | cons x xs ih =>
    have hx : key x ≠ key r := h x (by simp)
    simp only [listPut, if_neg hx, List.cons_append, List.cons.injEq, true_and]
    exact ih (fun y hy => h y (by simp [hy]))

/-- Replaying `put`s whose keys are pairwise distinct and absent from the
store appends the records in order. -/
theorem listPutAll_eq_append {α : Type} (key : α → String) (l : List α) :
    ∀ s : List α, (l.map key).Nodup → (∀ x ∈ s, ∀ y ∈ l, key x ≠ key y) →
      listPutAll key l s = s ++ l := by
  induction l with
  | nil => intro s _ _; simp [listPutAll]
  | cons r rs ih =>
    intro s hnd hdisj
    have hsr : ∀ x ∈ s, key x ≠ key r := fun x hx => hdisj x hx r (by simp)
    have hstep : listPutAll key (r :: rs) s = listPutAll key rs (s ++ [r]) := by
      simp [listPutAll, listPut_eq_append key r s hsr]
    have hnd' : (rs.map key).Nodup := (List.nodup_cons.mp (by simpa using hnd)).2
    have hrnot : key r ∉ rs.map key := (List.nodup_cons.mp (by simpa using hnd)).1
    have hdisj' : ∀ x ∈ s ++ [r], ∀ y ∈ rs, key x ≠ key y := by
      intro x hx y hy
      rcases List.mem_append.mp hx with hxs | hxr
      · exact hdisj x hxs y (by simp [hy])
      · have hxr' : x = r := by simpa using hxr
        subst hxr'
        exact fun hc => hrnot (hc ▸ List.mem_map_of_mem key hy)
    rw [hstep, ih (s ++ [r]) hnd' hdisj', List.append_assoc]
    simp

/-- Replaying `put`s leaves every key not written untouched. -/
theorem listGet_listPutAll_not_mem {α : Type} (key : α → String) (l : List α)
    (i : String) :
    ∀ s : List α, i ∉ l.map key →
      listGet key i (listPutAll key l s) = listGet key i s := by
  induction l with
  | nil => intro s _; simp [listPutAll]
  | cons r rs ih =>
    intro s hmem
    have hir : i ≠ key r := by
      intro hc; exact hmem (by simp [hc])
    have hirs : i ∉ rs.map key := fun hc => hmem (by simp [hc])
    have hstep : listPutAll key (r :: rs) s = listPutAll key rs (listPut key r s) := by
      simp [listPutAll]
    rw [hstep, ih (listPut key r s) hirs, listGet_listPut_other key r s i hir]

/-- Replaying `put`s with pairwise distinct keys makes every replayed
record the stored record under its key. -/
theorem listGet_listPutAll_mem {α : Type} (key : α → String) (l : List α)
    (r : α) :
    ∀ s : List α, (l.map key).Nodup → r ∈ l →
      listGet key (key r) (listPutAll key l s) = some r := by
  induction l with
  | nil => intro s _ hm; cases hm
  | cons a rs ih =>
    intro s hnd hm
    have hnd' : (rs.map key).Nodup := (List.nodup_cons.mp (by simpa using hnd)).2
    have hanot : key a ∉ rs.map key := (List.nodup_cons.mp (by simpa using hnd)).1
    have hstep : listPutAll key (a :: rs) s = listPutAll key rs (listPut key a s) := by
      simp [listPutAll]
    rcases List.mem_cons.mp hm with hra | hrs
    · subst hra
      rw [hstep, listGet_listPutAll_not_mem key rs (key r) (listPut key r s) hanot,
        listGet_listPut_self]
    · rw [hstep, ih (listPut key a s) hnd' hrs]

/-- A lookup is `none` exactly when no record has the key. -/
theorem listGet_eq_none_iff {α : Type} (key : α → String) (i : String) (l : List α) :
    listGet key i l = none ↔ i ∉ l.map key := by
  simp only [listGet, List.find?_eq_none, decide_eq_true_eq, List.mem_map]
  constructor
  · rintro h ⟨x, hx, hk⟩
    exact h x hx hk
  · intro h x hx hk
    exact h ⟨x, hx, hk⟩

/-- Deleting a key makes a later `delete` of the same key a no-op, and
deleting a key that is absent is already a no-op. -/
theorem listDelete_idem {α : Type} (key : α → String) (i : String) (l : List α) :
    listDelete key i (listDelete key i l) = listDelete key i l := by
  simp [listDelete, List.filter_filter]

/-- After a `delete`, the deleted key is absent. -/
theorem listGet_listDelete_self {α : Type} (key : α → String) (i : String) (l : List α) :
    listGet key i (listDelete key i l) = none := by
  induction l with
  | nil => simp [listGet, listDelete]
  | cons x xs ih =>
    by_cases hx : key x = i
    · simpa [listDelete, List.filter, hx] using ih
    · have hd : decide (key x = i) = false := decide_eq_false hx
      simp only [listDelete, List.filter] at ih ⊢
      simp [listGet, List.find?, hd, hx, ih]

/-- An `add` appends the record exactly when the key is absent, and
fails with a ConstraintError exactly when the key is present. -/
theorem listAdd_spec {α : Type} (key : α → String) (r : α) (l : List α) :
    (listAdd key r l = Except.ok (l ++ [r]) ↔ listGet key (key r) l = none)
      ∧ (listAdd key r l = Except.error "ConstraintError"
        ↔ listGet key (key r) l ≠ none) := by
  simp only [ne_eq, listGet_eq_none_iff]
  by_cases h : (l.any fun x => decide (key x = key r)) = true
  · rcases List.any_eq_true.mp h with ⟨x, hx, hk⟩
    have hk' : key x = key r := of_decide_eq_true hk
    have hmem : key r ∈ l.map key := List.mem_map.mpr ⟨x, hx, hk'⟩
    refine ⟨⟨fun hc => ?_, fun hc => absurd hmem hc⟩,
      ⟨fun _ => fun hc => hc hmem, fun _ => ?_⟩⟩
    · rw [listAdd, if_pos h] at hc
      cases hc
    · rw [listAdd, if_pos h]
  · have hforall : ∀ x ∈ l, key x ≠ key r := by
      intro x hx hk
      exact h (List.any_eq_true.mpr ⟨x, hx, decide_eq_true hk⟩)
    have hnmem : key r ∉ l.map key := by
      intro hc
      rcases List.mem_map.mp hc with ⟨x, hx, hk⟩
      exact hforall x hx hk
    refine ⟨⟨fun _ => hnmem, fun _ => ?_⟩, ⟨fun hc => ?_, fun hc => absurd hnmem hc⟩⟩
    · rw [listAdd, if_neg h]
    · rw [listAdd, if_neg h] at hc
      cases hc

/-- Replaying saveFolder over a list only rewrites the folders collection. -/
theorem foldl_saveFolder_eq (l : List Folder) :
    ∀ s : DB, l.foldl (fun st f => saveFolder f st) s
      = { s with folders := listPutAll Folder.id l s.folders } := by
  induction l with
  | nil => intro s; simp [listPutAll]
  | cons f fs ih =>
    intro s
    rw [List.foldl_cons, ih (saveFolder f s)]
    simp [saveFolder, listPutAll]

/-- Replaying saveDocument over a list only rewrites the documents collection. -/
theorem foldl_saveDocument_eq (l : List Document) :
    ∀ s : DB, l.foldl (fun st d => saveDocument d st) s
      = { s with documents := listPutAll Document.id l s.documents } := by
  induction l with
  | nil => intro s; simp [listPutAll]
  | cons d ds ih =>
    intro s
    rw [List.foldl_cons, ih (saveDocument d s)]
    simp [saveDocument, listPutAll]

/-- importWorkspace replays the folder puts and then the document puts
and never touches the tickets collection. -/
theorem importWorkspace_eq (snap : Workspace) (s : DB) :
    importWorkspace snap s
      = { s with
          documents := listPutAll Document.id snap.documents s.documents
          folders := listPutAll Folder.id snap.folders s.folders } := by
  rw [importWorkspace, foldl_saveFolder_eq, foldl_saveDocument_eq]

/-- Claim C1: opening a store populated with documents and folders at the
prior schema version at DB_VERSION 2 leaves every existing document and
folder record (and the existing index declarations) identical, and
creates the tickets collection present and empty with its declared
indexes, touching neither the documents nor the folders store. -/
theorem C1_upgrade_nondestructive (docIdx : List IndexDef) (docs : List Document)
    (folIdx : List IndexDef) (fols : List Folder) :
    initDBOpen ⟨1, some (docIdx, docs), some (folIdx, fols), none⟩
      = ⟨2, some (docIdx, docs), some (folIdx, fols), some (ticketIndexDefs, [])⟩ :=
  rfl

/-- Claim C2 counterexample: createTicket is add-based, so on a store
already containing a ticket with the same id it fails with a
ConstraintError even though no storage-layer error occurred — it is not
a put-style upsert. -/
theorem C2_counterexample :
    createTicket exTicketA exDBt = Except.error "ConstraintError"
      ∧ getTicket exTicketA.id exDBt = some exTicketA :=
  ⟨rfl, by decide⟩

/-- Claim C2 amended: saveDocument, saveFolder and updateTicket are
upserts by primary key that insert when the id is absent, fully replace
when it is present, and never fail; createTicket instead is an insert
that appends exactly when the id is absent and fails with a
ConstraintError exactly when the id is already present. -/
theorem C2_put_upsert (d : Document) (f : Folder) (t : Ticket) (s : DB) :
    getDocument d.id (saveDocument d s) = some d
    ∧ (∀ j, j ≠ d.id → getDocument j (saveDocument d s) = getDocument j s)
    ∧ getFolder f.id (saveFolder f s) = some f
    ∧ (∀ j, j ≠ f.id → getFolder j (saveFolder f s) = getFolder j s)
    ∧ getTicket t.id (updateTicket t s) = some t
    ∧ (∀ j, j ≠ t.id → getTicket j (updateTicket t s) = getTicket j s)
    ∧ (createTicket t s = Except.ok { s with tickets := s.tickets ++ [t] }
        ↔ getTicket t.id s = none)
    ∧ (createTicket t s = Except.error "ConstraintError"
        ↔ getTicket t.id s ≠ none) := by
  have hadd := listAdd_spec Ticket.id t s.tickets
  refine ⟨listGet_listPut_self Document.id d s.documents,
    fun j hj => listGet_listPut_other Document.id d s.documents j hj,
    listGet_listPut_self Folder.id f s.folders,
    fun j hj => listGet_listPut_other Folder.id f s.folders j hj,
    listGet_listPut_self Ticket.id t s.tickets,
    fun j hj => listGet_listPut_other Ticket.id t s.tickets j hj, ?_, ?_⟩
  · constructor
    · intro hc
      cases hl : listAdd Ticket.id t s.tickets with
      | error e =>
        rw [createTicket, hl] at hc
        cases hc
      | ok l =>
        by_contra hne
        have herr := hadd.2.mpr hne
        rw [hl] at herr
        cases herr
    · intro h
      rw [createTicket, hadd.1.mpr h]
      rfl
  · constructor
    · intro hc
      by_cases h : getTicket t.id s = none
      · rw [createTicket, hadd.1.mpr h] at hc
        cases hc
      · exact h
    · intro h
      rw [createTicket, hadd.2.mpr h]
      rfl

/-- Witness for the amended C2 theorem at a concrete store and key. -/
theorem C2_put_upsert_witness :
    getDocument "zz" (saveDocument exDoc exWsDB) = getDocument "zz" exWsDB :=
  (C2_put_upsert exDoc exFolder exTicketA exWsDB).2.1 "zz" (by decide)

/-- Claim C3: importing the export of any store with unique primary keys
into an empty store reproduces the documents and folders collections
exactly (hence set-equal), and the resulting tickets collection is empty
because tickets are not part of the exported snapshot. -/
theorem C3_export_import_roundtrip (s : DB)
    (hd : (s.documents.map Document.id).Nodup)
    (hf : (s.folders.map Folder.id).Nodup) :
    getAllDocuments (importWorkspace (exportWorkspace s) emptyDB) = getAllDocuments s
    ∧ getAllFolders (importWorkspace (exportWorkspace s) emptyDB) = getAllFolders s
    ∧ getAllTickets (importWorkspace (exportWorkspace s) emptyDB) = [] := by
  have h := importWorkspace_eq (exportWorkspace s) emptyDB
  have hdocs : listPutAll Document.id s.documents [] = s.documents := by
    simpa using listPutAll_eq_append Document.id s.documents [] hd (by simp)
  have hfols : listPutAll Folder.id s.folders [] = s.folders := by
    simpa using listPutAll_eq_append Folder.id s.folders [] hf (by simp)
  refine ⟨?_, ?_, ?_⟩ <;> rw [h] <;>
    simp [getAllDocuments, getAllFolders, getAllTickets, exportWorkspace,
      emptyDB, hdocs, hfols]

/-- Witness for the C3 round-trip theorem at a concrete store. -/
theorem C3_export_import_roundtrip_witness :
    getAllDocuments (importWorkspace (exportWorkspace exWsDB) emptyDB)
      = getAllDocuments exWsDB :=
  (C3_export_import_roundtrip exWsDB (by decide) (by decide)).1

/-- Claim C4: import replays a put for every folder of the snapshot and
then a put for every document; a snapshot record whose id exists
overwrites exactly that record, records with new ids are added, every
record absent from the snapshot is unchanged, and the tickets
collection is untouched. -/
theorem C4_merging_import (snap : Workspace) (s : DB)
    (hd : (snap.documents.map Document.id).Nodup)
    (hf : (snap.folders.map Folder.id).Nodup) :
    (∀ d ∈ snap.documents, getDocument d.id (importWorkspace snap s) = some d)
    ∧ (∀ i, i ∉ snap.documents.map Document.id →
        getDocument i (importWorkspace snap s) = getDocument i s)
    ∧ (∀ f ∈ snap.folders, getFolder f.id (importWorkspace snap s) = some f)
    ∧ (∀ i, i ∉ snap.folders.map Folder.id →
        getFolder i (importWorkspace snap s) = getFolder i s)
    ∧ (importWorkspace snap s).tickets = s.tickets
    ∧ importWorkspace snap s
      = { s with
          documents := listPutAll Document.id snap.documents s.documents
          folders := listPutAll Folder.id snap.folders s.folders } := by
  have h := importWorkspace_eq snap s
  refine ⟨?_, ?_, ?_, ?_, ?_, h⟩
  · intro d hdm
    simp only [getDocument, h]
    exact listGet_listPutAll_mem Document.id snap.documents d s.documents hd hdm
  · intro i him
    simp only [getDocument, h]
    exact listGet_listPutAll_not_mem Document.id snap.documents i s.documents him
  · intro f hfm
    simp only [getFolder, h]
    exact listGet_listPutAll_mem Folder.id snap.folders f s.folders hf hfm
  · intro i him
    simp only [getFolder, h]
    exact listGet_listPutAll_not_mem Folder.id snap.folders i s.folders him
  · simp [h]

/-- Witness for the C4 merging-import theorem: a snapshot document whose
id already exists is the stored record after the import. -/
theorem C4_merging_import_witness :
    getDocument "d1" (importWorkspace ⟨[exDoc], [exFolder]⟩ exDBt) = some exDoc :=
  (C4_merging_import ⟨[exDoc], [exFolder]⟩ exDBt (by decide) (by decide)).1
    exDoc (by decide)

/-- Claim C5 counterexample: a second initDB call that arrives while the
first open is in flight (the cache still unset) issues a second
indexedDB.open request — two connection attempts, not one, so the
in-flight open is not shared. -/
theorem C5_counterexample :
    ((initDBCall (initDBCall connInit).1).1).opensIssued = 2
      ∧ ((initDBCall (initDBCall connInit).1).1).opensIssued ≠ 1 := by
  decide

/-- Claim C5 amended: only after an open has succeeded is initDB
idempotent — once the connection is cached every later call resolves the
same cached connection and issues no further open request. -/
theorem C5_cached_idempotent (s : ConnState) (c : Nat) (h : s.db = some c) :
    initDBCall s = (s, some c) := by
  obtain ⟨db, opens⟩ := s
  cases h
  rfl

/-- Witness for the amended C5 theorem after a successful open. -/
theorem C5_cached_idempotent_witness :
    initDBCall (openSuccess 7 connInit) = (openSuccess 7 connInit, some 7) :=
  C5_cached_idempotent (openSuccess 7 connInit) 7 rfl

/-- Claim C6: the status-index lookup returns exactly the tickets whose
status equals the queried status, and the multiEntry tag-index lookup
returns exactly the tickets one of whose tags is the queried tag (so a
ticket tagged bug and urgent is returned for bug and for urgent and for
no other tag). -/
theorem C6_indexed_lookup (q : TicketStatus) (g : String) (t : Ticket) (s : DB) :
    (t ∈ getTicketsByStatus q s ↔ t ∈ s.tickets ∧ t.status = q)
    ∧ (t ∈ getTicketsByTag g s ↔ t ∈ s.tickets ∧ g ∈ t.tags) := by
  constructor
  · simp [getTicketsByStatus, indexGetAllEq, List.mem_filter]
  · simp [getTicketsByTag, multiIndexGetAll, List.mem_filter]

/-- Claim C7 counterexample: the query alice is a substring of the
stored ticket's assignee, yet searchTickets returns nothing — the
assignee field is not searched, contrary to the claim. -/
theorem C7_counterexample :
    searchTickets "alice" exDBt = []
      ∧ exTicketA.assignee = some "alice"
      ∧ exTicketA ∈ exDBt.tickets := by
  decide

/-- Claim C7 amended: search is a full scan returning, in storage order,
exactly the records whose lowercased title or content (documents), or
lowercased title, description or one of the tags (tickets — the
assignee field is not searched), contains the lowercased query. -/
theorem C7_search_scan (q : String) (s : DB) (d : Document) (t : Ticket) :
    (d ∈ searchDocuments q s ↔ d ∈ s.documents
      ∧ (jsIncludes (jsLower d.title) (jsLower q)
          ∨ jsIncludes (jsLower d.content) (jsLower q)))
    ∧ (t ∈ searchTickets q s ↔ t ∈ s.tickets
      ∧ (jsIncludes (jsLower t.title) (jsLower q)
          ∨ jsIncludes (jsLower t.description) (jsLower q)
          ∨ ∃ g ∈ t.tags, jsIncludes (jsLower g) (jsLower q)))
    ∧ (searchDocuments q s).Sublist s.documents
    ∧ (searchTickets q s).Sublist s.tickets := by
  refine ⟨?_, ?_, ?_, ?_⟩
  · simp [searchDocuments, getAllDocuments, List.mem_filter]
  · simp [searchTickets, getAllTickets, List.mem_filter, List.any_eq_true]
    intro _
    tauto
  · exact List.filter_sublist _
  · exact List.filter_sublist _

/-- Claim C8: after a delete the id reads back as absent, a second
delete of the now-missing id is a no-op (and deletes never fail in the
model), and a get on a missing primary key is the normal empty result
rather than an error. -/
theorem C8_delete_finality (i : String) (s : DB) :
    getDocument i (deleteDocument i s) = none
    ∧ deleteDocument i (deleteDocument i s) = deleteDocument i s
    ∧ getTicket i (deleteTicket i s) = none
    ∧ deleteTicket i (deleteTicket i s) = deleteTicket i s
    ∧ (getDocument i s = none ↔ i ∉ s.documents.map Document.id) := by
  refine ⟨listGet_listDelete_self Document.id i s.documents, ?_,
    listGet_listDelete_self Ticket.id i s.tickets, ?_,
    listGet_eq_none_iff Document.id i s.documents⟩
  · simp [deleteDocument, listDelete_idem]
  · simp [deleteTicket, listDelete_idem]

/-- Claim C10: a null query key on the folderId index denotes the
unbounded range and records with a null folderId have no index entry, so
getDocumentsByFolder null returns exactly the documents whose folderId
is non-null — never the root documents; likewise for
getFoldersByParent null over the parentId index. -/
theorem C10_null_key_lookup (s : DB) (d : Document) (f : Folder) :
    (d ∈ getDocumentsByFolder none s ↔ d ∈ s.documents ∧ d.folderId ≠ none)
    ∧ (f ∈ getFoldersByParent none s ↔ f ∈ s.folders ∧ f.parentId ≠ none) := by
  constructor
  · simp [getDocumentsByFolder, indexGetAllOpt, List.mem_filter,
      Option.isSome_iff_ne_none]
  · simp [getFoldersByParent, indexGetAllOpt, List.mem_filter,
      Option.isSome_iff_ne_none]

/-- Claim C9 counterexample: the hook update spreads an arbitrary
Partial Ticket patch over the stored record, so a patch that itself
contains createdAt rewrites it — a ticket created at time 100 and
updated at time 150 with the patch containing createdAt 999 is stored
with createdAt 999 and updatedAt 150, violating both the claim that
createdAt is left unchanged by every update and the claimed invariant
updatedAt >= createdAt. -/
theorem C9_counterexample :
    exFinalTicket = some { exTicketA with createdAt := 999, updatedAt := 150 }
      ∧ exFinalTicket.map Ticket.createdAt = some 999
      ∧ exFinalTicket.map Ticket.updatedAt = some 150
      ∧ ¬ ((999 : Nat) ≤ 150) := by
  decide

/-- Claim C9 amended: creation stores createdAt = updatedAt = now; every
hook update stores a record whose updatedAt is the update time whatever
the patch; and when the patch does not itself contain createdAt (as is
the case for the status-only patch sent by moveTicket), createdAt is
preserved, so the stored record satisfies updatedAt >= createdAt
whenever the update time is not before the creation time. -/
theorem C9_timestamps (now now2 : Nat) (uid : String) (dta : TicketData)
    (i : String) (p : TicketPatch) (s : DB) (t : Ticket)
    (hp : p.createdAt = none) (hg : getTicket i s = some t)
    (hmono : t.createdAt ≤ now2) :
    (mkNewTicket now uid dta).createdAt = now
    ∧ (mkNewTicket now uid dta).updatedAt = now
    ∧ (∀ q : TicketPatch, (hookApply now2 i q t).updatedAt = now2)
    ∧ hookUpdateTicket now2 i p s
        = Except.ok (updateTicket (hookApply now2 i p t) s)
    ∧ getTicket i (updateTicket (hookApply now2 i p t) s)
        = some (hookApply now2 i p t)
    ∧ (hookApply now2 i p t).createdAt = t.createdAt
    ∧ (hookApply now2 i p t).createdAt ≤ (hookApply now2 i p t).updatedAt
    ∧ (statusPatch TicketStatus.done).createdAt = none
    ∧ hookMoveTicket now2 i TicketStatus.done s
        = hookUpdateTicket now2 i (statusPatch TicketStatus.done) s := by
  refine ⟨rfl, rfl, fun q => rfl, ?_, ?_, ?_, ?_, rfl, rfl⟩
  · simp [hookUpdateTicket, hg]
  · exact listGet_listPut_self Ticket.id (hookApply now2 i p t) s.tickets
  · simp [hookApply, applyPatch, hp]
  · simpa [hookApply, applyPatch, hp] using hmono

/-- Witness for the amended C9 theorem: a concrete creation at time 100
followed by a status-only update at time 150. -/
theorem C9_timestamps_witness :
    (mkNewTicket 100 "t1" cTicketData).createdAt = 100
      ∧ (mkNewTicket 100 "t1" cTicketData).updatedAt = 100 :=
  ⟨(C9_timestamps 100 150 "t1" cTicketData "t1"
      (statusPatch TicketStatus.inProgress) exDBt exTicketA rfl (by decide)
      (by decide)).1,
   (C9_timestamps 100 150 "t1" cTicketData "t1"
      (statusPatch TicketStatus.inProgress) exDBt exTicketA rfl (by decide)
      (by decide)).2.1⟩
